import Mathlib

/-!
Verification of the FinLab MCP worker (`src/workers/src/index.ts`): a shallow
embedding of the document-query engine (`listDocuments`, `getDocument`,
`searchDocs`, `getFactorExamples`) and the request dispatcher
(`handleToolCall`, `handleMcpRequest`), followed by theorems settling the
specification claims. The document store `DOCS` lives in a separate module
(`./docs`), so every function takes the store as an explicit parameter, in
list form to keep the `Object.entries` iteration order observable.
-/

/-- Character-level lowercasing, modelling the JS `String.prototype.toLowerCase`
calls in the worker (`Char.toLower` covers the ASCII range that matters for
the case-insensitivity the code relies on). -/
def toLowerStr (s : String) : String :=
  ⟨s.data.map Char.toLower⟩

/-- Containment of `needle` as a contiguous run inside the haystack character
list; worker for `strIncludes`. -/
def strIncludesAux (needle : List Char) : List Char → Bool
  | [] => needle.isEmpty
  | c :: rest => needle.isPrefixOf (c :: rest) || strIncludesAux needle rest

/-- Models the JS substring test `hay.includes(needle)` (true for the empty
needle, exactly as in JS). -/
def strIncludes (hay needle : String) : Bool :=
  strIncludesAux needle.data hay.data

/-- Fuel-indexed worker for `splitOnList`; the fuel is an upper bound on the
input length, which makes the recursion structural (so concrete instances
reduce inside the kernel). -/
def splitFuelAux (sep : List Char) : Nat → List Char → List (List Char)
  | _, [] => [[]]
  | 0, l => [l]
  | fuel + 1, c :: rest =>
    if sep ≠ [] ∧ sep.isPrefixOf (c :: rest) then
      [] :: splitFuelAux sep fuel ((c :: rest).drop sep.length)
    else
      match splitFuelAux sep fuel rest with
      | [] => [[c]]
      | chunk :: more => (c :: chunk) :: more

/-- JS `s.split(sep)` on character lists, for a non-empty separator (the
worker only ever splits on `"\n"` and `"\n## "`): leftmost, non-overlapping
occurrences of `sep` delimit the chunks. -/
def splitOnList (sep l : List Char) : List (List Char) :=
  splitFuelAux sep l.length l

/-- JS `s.split(sep)` on strings. -/
def jsSplit (s sep : String) : List String :=
  (splitOnList sep.data s.data).map (fun cs => ⟨cs⟩)

/-- The Document Store: the immutable name-to-text mapping `DOCS` imported
from `./docs`, kept as a parameter (the spec treats it as injected
configuration); the list order is the `Object.entries` iteration order and
keys are unique. -/
abbrev Docs := List (String × String)

/-- JS property access `DOCS[name]` / the `name in DOCS` test. -/
def lookupDoc (docs : Docs) (name : String) : Option String :=
  docs.lookup name

/-- The regex replace `/^#+\s*/` of `listDocuments`: strip one-or-more leading
hash marks and the whitespace that follows them; a string not starting with
a hash mark is returned unchanged (the regex does not match there). -/
def stripHeading (s : String) : String :=
  match s.data with
  | '#' :: _ => ⟨(s.data.dropWhile (fun c => c == '#')).dropWhile (fun c => c.isWhitespace)⟩
  | _ => s

/-- The synopsis `listDocuments` derives from a document:
`content.split('\n').find(l => l.trim())?.replace(/^#+\s*/, '').trim() || ''`. -/
def firstLineSummary (content : String) : String :=
  match (jsSplit content ("\n")).find? (fun l => l.trim != "") with
  | some l => (stripHeading l).trim
  | none => ""

/-- The `list_documents` tool: header plus one bullet per store entry. -/
def listDocuments (docs : Docs) : String :=
  let entries := docs.map (fun p => "- **" ++ p.1 ++ "**: " ++ firstLineSummary p.2)
  "## Available FinLab Documents\n\n" ++ String.intercalate ("\n") entries

/-- The `get_document` tool: exact key match, else a not-found message that
enumerates every valid name. -/
def getDocument (docs : Docs) (docName : String) : String :=
  match lookupDoc docs docName with
  | some content => content
  | none =>
    "Document \x27" ++ docName ++ "\x27 not found.\n\nAvailable documents: " ++
      String.intercalate (", ") (docs.map (fun p => p.1))

/-- A search result record of `searchDocs` (`{ file, line, match }`; the
`match` field is spelled `matchText` because `match` is a Lean keyword). -/
structure Hit where
  file : String
  line : Nat
  matchText : String
  deriving DecidableEq

/-- The per-line scan of `searchDocs`: for each 0-based index `i` whose line
contains the lowered query, one hit with 1-based line number `i + 1` and the
window `lines.slice(Math.max(0, i - 2), Math.min(lines.length, i + 6))`
re-joined with newlines (`Nat` subtraction supplies the `Math.max(0, _)`
clamp). -/
def docHits (name content queryLower : String) : List Hit :=
  let lines := jsSplit content ("\n")
  (List.range lines.length).filterMap (fun i =>
    if strIncludes (toLowerStr (lines.getD i (""))) queryLower then
      some ⟨name, i + 1,
        String.intercalate ("\n")
          ((lines.take (min lines.length (i + 6))).drop (i - 2))⟩
    else none)

/-- One document's contribution to the search: the `continue` pre-filter
(skip a document whose lowered full text lacks the lowered query) followed by
the line scan. -/
def perDocHits (name content queryLower : String) : List Hit :=
  if strIncludes (toLowerStr content) queryLower then docHits name content queryLower else []

/-- The full hit list `searchDocs` accumulates across the store, in
document-iteration order then line order. -/
def searchResults (docs : Docs) (queryLower : String) : List Hit :=
  docs.flatMap (fun p => perDocHits p.1 p.2 queryLower)

/-- The hit list for a raw query (the query is lowered once up front). -/
def searchHits (docs : Docs) (query : String) : List Hit :=
  searchResults docs (toLowerStr query)

/-- One rendered hit block of the search report. -/
def renderHit (r : Hit) : String :=
  "### " ++ r.file ++ " (line " ++ toString r.line ++ ")\n```\n" ++ r.matchText ++ "\n```\n\n"

/-- The `search_finlab_docs` tool: no-results message when the hit list is
empty, otherwise a header naming the query followed by the first 10 hits
rendered (`results.slice(0, 10)`). -/
def searchDocs (docs : Docs) (query : String) : String :=
  let results := searchHits docs query
  if results = [] then
    "No results found for \x27" ++ query ++ "\x27"
  else
    "## Search Results: " ++ query ++ "\n\n" ++
      String.join ((results.take 10).map renderHit)

/-- The `get_factor_examples` tool. The JS guard is `if (!content)`, a
falsiness test: it fires both when `DOCS['factor-examples']` is absent
(`undefined`) and when the document is present with empty text, which the
`(lookupDoc …).getD "" = ""` comparison reproduces exactly. -/
def getFactorExamples (docs : Docs) (factorType : String) : String :=
  let content := (lookupDoc docs ("factor-examples")).getD ("")
  if content = "" then "factor-examples not found"
  else if factorType = "all" then content
  else
    let sections := jsSplit content ("\n## ")
    let matching := sections.filter (fun s => strIncludes (toLowerStr s) (toLowerStr factorType))
    if matching = [] then
      "No examples found for factor type \x27" ++ factorType ++
        "\x27. Try: value, momentum, technical, quality, ml"
    else
      String.intercalate ("\n\n") (matching.map (fun s => "## " ++ s))

/-- Argument mapping of a tool call; a missing key models a JS `undefined`
argument. -/
abbrev ToolArgs := List (String × String)

/-- One entry of a tool's `inputSchema.properties` object. -/
structure ToolProperty where
  name : String
  type : String
  description : String
  defaultValue : Option String
  deriving DecidableEq

/-- A tool's `inputSchema`. -/
structure ToolInputSchema where
  type : String
  properties : List ToolProperty
  required : List String
  deriving DecidableEq

/-- A tool descriptor. -/
structure Tool where
  name : String
  description : String
  inputSchema : ToolInputSchema
  deriving DecidableEq

/-- The static `TOOLS` array; it depends on the store because the
`get_document` description embeds `Object.keys(DOCS).join(', ')`. -/
def TOOLS (docs : Docs) : List Tool :=
  [⟨("list_documents"), ("List all available FinLab documentation files"),
      ⟨("object"), [], []⟩⟩,
    ⟨("get_document"), ("Get the full content of a FinLab documentation file"),
      ⟨("object"),
        [⟨("doc_name"), ("string"),
          ("Name of the document (without .md extension). Available: ") ++
            String.intercalate (", ") (docs.map (fun p => p.1)), none⟩],
        [("doc_name")]⟩⟩,
    ⟨("search_finlab_docs"), ("Search for a keyword or phrase in all FinLab documentation"),
      ⟨("object"),
        [⟨("query"), ("string"), ("The search term to look for (case-insensitive)"), none⟩],
        [("query")]⟩⟩,
    ⟨("get_factor_examples"), ("Get factor/strategy examples from the documentation"),
      ⟨("object"),
        [⟨("factor_type"), ("string"),
          ("Type of factor: all, value, momentum, technical, quality, ml"), some ("all")⟩],
        []⟩⟩]

/-- The `tools/call` dispatch. A `none` result models a thrown JS
`TypeError`: `searchDocs` immediately calls `query.toLowerCase()`, so a call
missing the `query` argument (the cast `args.query as string` hides the
`undefined`) throws. `get_document` instead survives an absent `doc_name`
because both the `in` operator and the template literal coerce `undefined`
to the property key / text `"undefined"`; `get_factor_examples` applies the
falsy fallback `(args.factor_type as string) || 'all'`, which also maps an
empty-string argument to `'all'`. -/
def handleToolCall (docs : Docs) (name : String) (args : ToolArgs) : Option String :=
  match name with
  | "list_documents" => some (listDocuments docs)
  | "get_document" => some (getDocument docs ((args.lookup ("doc_name")).getD ("undefined")))
  | "search_finlab_docs" =>
    match args.lookup ("query") with
    | some q => some (searchDocs docs q)
    | none => none
  | "get_factor_examples" =>
    some (getFactorExamples docs
      (match args.lookup ("factor_type") with
       | some s => if s = "" then "all" else s
       | none => "all"))
  | other => some ("Unknown tool: " ++ other)

/-- A JSON-RPC correlation identifier (`string | number`). -/
inductive RequestId where
  | str (s : String)
  | num (n : Int)
  deriving DecidableEq

/-- The `params` object of a `tools/call` request as the dispatcher reads it:
a tool name and an optional argument mapping, either of which a malformed
request may omit. -/
structure McpParams where
  name : Option String
  arguments : Option ToolArgs
  deriving DecidableEq

/-- A request envelope. -/
structure McpRequest where
  jsonrpc : String
  id : RequestId
  method : String
  params : Option McpParams
  deriving DecidableEq

/-- A protocol-level error (`{ code, message }`). -/
structure McpError where
  code : Int
  message : String
  deriving DecidableEq

/-- The fixed `serverInfo` metadata. -/
structure ServerInfo where
  name : String
  version : String
  deriving DecidableEq

/-- The declared capability set `{ tools: {} }`. -/
structure Capabilities where
  tools : Unit
  deriving DecidableEq

/-- The fixed result of the `initialize` method. -/
structure InitResult where
  protocolVersion : String
  serverInfo : ServerInfo
  capabilities : Capabilities
  deriving DecidableEq

/-- One element of a tool call's `content` list (`{ type: 'text', text }`). -/
structure ContentItem where
  type : String
  text : String
  deriving DecidableEq

/-- The possible `result` payloads of a response envelope. -/
inductive McpResult where
  | initRes (r : InitResult)
  | toolsList (tools : List Tool)
  | toolCall (content : List ContentItem)
  deriving DecidableEq

/-- A response envelope. -/
structure McpResponse where
  jsonrpc : String
  id : RequestId
  result : Option McpResult
  error : Option McpError
  deriving DecidableEq

/-- The fixed payload the `initialize` branch returns. -/
def initResultValue : InitResult :=
  ⟨("2024-11-05"), ⟨("finlab-docs"), ("1.0.0")⟩, ⟨()⟩⟩

/-- The request dispatcher. A `none` models a thrown TypeError escaping
`handleMcpRequest` (reading `.name` of an `undefined` `params`, or a tool
call that throws); the transport's surrounding try/catch is outside this
model. When `params.name` is `undefined` the JS `switch` falls through to
the default branch, whose template literal prints `undefined`. -/
def handleMcpRequest (docs : Docs) (req : McpRequest) : Option McpResponse :=
  match req.method with
  | "initialize" =>
    some ⟨("2.0"), req.id, some (McpResult.initRes initResultValue), none⟩
  | "tools/list" =>
    some ⟨("2.0"), req.id, some (McpResult.toolsList (TOOLS docs)), none⟩
  | "tools/call" =>
    match req.params with
    | none => none
    | some p =>
      let toolArgs := p.arguments.getD []
      match (match p.name with
             | some n => handleToolCall docs n toolArgs
             | none => some ("Unknown tool: undefined")) with
      | none => none
      | some text =>
        some ⟨("2.0"), req.id, some (McpResult.toolCall [⟨("text"), text⟩]), none⟩
  | m =>
    some ⟨("2.0"), req.id, none, some ⟨-32601, ("Method not found: ") ++ m⟩⟩

/-- The amended Claim C3 case description of `getFactorExamples`, written
from the spec's words with "absent" widened to "absent or empty-text": such
a store yields the not-found message; otherwise `"all"` returns the text
unchanged; otherwise the `"\n## "`-delimited sections are filtered
case-insensitively, with a guidance message when nothing matches and the
matching sections re-joined under restored `## ` prefixes otherwise. -/
def getFactorExamplesSpec (docs : Docs) (factorType : String) : String :=
  match lookupDoc docs ("factor-examples") with
  | none => "factor-examples not found"
  | some text =>
    if text = "" then "factor-examples not found"
    else if factorType = "all" then text
    else
      let sections := jsSplit text ("\n## ")
      let matching := sections.filter (fun s => strIncludes (toLowerStr s) (toLowerStr factorType))
      if matching = [] then
        "No examples found for factor type \x27" ++ factorType ++
          "\x27. Try: value, momentum, technical, quality, ml"
      else
        String.intercalate ("\n\n") (matching.map (fun s => "## " ++ s))

/-- Concrete initialize request used by a witness below. -/
def c1Req : McpRequest := ⟨("2.0"), RequestId.num 1, ("initialize"), none⟩

/-- The envelope the dispatcher answers to `c1Req`. -/
def c1Resp : McpResponse :=
  ⟨("2.0"), RequestId.num 1, some (McpResult.initRes initResultValue), none⟩

/-- Concrete unknown-method request used by a witness below. -/
def c4Req : McpRequest := ⟨("2.0"), RequestId.num 7, ("bogus/method"), none⟩

/-- The error envelope the dispatcher answers to `c4Req`. -/
def c4Resp : McpResponse :=
  ⟨("2.0"), RequestId.num 7, none, some ⟨-32601, ("Method not found: bogus/method")⟩⟩

theorem strIncludesAux_iff (needle hay : List Char) :
    strIncludesAux needle hay = true ↔ needle <:+: hay := by
  induction hay with
  | nil => simp [strIncludesAux, List.isEmpty_iff]
  | cons c rest ih => simp [strIncludesAux, ih, List.infix_cons_iff]

theorem strIncludes_iff (hay needle : String) :
    strIncludes hay needle = true ↔ needle.data <:+: hay.data :=
  strIncludesAux_iff needle.data hay.data

theorem splitFuelAux_ne_nil (sep : List Char) (fuel : Nat) (l : List Char) :
    splitFuelAux sep fuel l ≠ [] := by
  match fuel, l with
  | _, [] => simp [splitFuelAux]
  | 0, c :: rest => simp [splitFuelAux]
  | fuel + 1, c :: rest =>
    unfold splitFuelAux
    split
    · simp
    · split <;> simp

theorem splitFuelAux_head_prefix (sep : List Char) :
    ∀ fuel l chunk more, splitFuelAux sep fuel l = chunk :: more → chunk <+: l := by
  intro fuel
  induction fuel with
  | zero =>
    intro l chunk more h
    cases l with
    | nil =>
      simp [splitFuelAux] at h
      simp [h.1.symm]
    | cons c rest =>
      simp [splitFuelAux] at h
      exact h.1 ▸ List.prefix_rfl
  | succ fuel ih =>
    intro l chunk more h
    cases l with
    | nil =>
      simp [splitFuelAux] at h
      simp [h.1.symm]
    | cons c rest =>
      unfold splitFuelAux at h
      split at h
      · injection h with h1 _
        exact h1 ▸ List.nil_prefix
      · split at h
        next h2 =>
          injection h with h1 _
          exact h1 ▸ List.cons_prefix_cons.mpr ⟨rfl, List.nil_prefix⟩
        next ch mo h2 =>
          injection h with h1 _
          exact h1 ▸ List.cons_prefix_cons.mpr ⟨rfl, ih rest ch mo h2⟩

theorem splitFuelAux_infix (sep : List Char) :
    ∀ fuel l chunk, l.length ≤ fuel → chunk ∈ splitFuelAux sep fuel l → chunk <:+: l := by
  intro fuel
  induction fuel with
  | zero =>
    intro l chunk hlen hmem
    have hl : l = [] := List.eq_nil_of_length_eq_zero (Nat.le_zero.mp hlen)
    subst hl
    simp [splitFuelAux] at hmem
    simp [hmem]
  | succ fuel ih =>
    intro l chunk hlen hmem
    cases l with
    | nil =>
      simp [splitFuelAux] at hmem
      simp [hmem]
    | cons c rest =>
      have hrest : rest.length ≤ fuel := by
        simp only [List.length_cons] at hlen
        omega
      unfold splitFuelAux at hmem
      split at hmem
      next hc =>
        rcases List.mem_cons.mp hmem with hnil | htail
        · simp [hnil]
        · have hseplen : 0 < sep.length := List.length_pos.mpr hc.1
          have hdlen : ((c :: rest).drop sep.length).length ≤ fuel := by
            rw [List.length_drop]
            simp only [List.length_cons]
            omega
          have hinf := ih _ chunk hdlen htail
          exact hinf.trans (List.drop_suffix sep.length (c :: rest)).isInfix
      next =>
        split at hmem
        next h2 => exact absurd h2 (splitFuelAux_ne_nil sep fuel rest)
        next ch mo h2 =>
          rcases List.mem_cons.mp hmem with hhead | htail
          · have hpre := splitFuelAux_head_prefix sep fuel rest ch mo h2
            exact hhead ▸ (List.cons_prefix_cons.mpr ⟨rfl, hpre⟩).isInfix
          · have : chunk ∈ splitFuelAux sep fuel rest := h2 ▸ List.mem_cons_of_mem ch htail
            exact List.infix_cons (ih rest chunk hrest this)

theorem splitFuelAux_single_not_mem (x : Char) :
    ∀ fuel l chunk, l.length ≤ fuel → chunk ∈ splitFuelAux [x] fuel l → x ∉ chunk := by
  intro fuel
  induction fuel with
  | zero =>
    intro l chunk hlen hmem
    have hl : l = [] := List.eq_nil_of_length_eq_zero (Nat.le_zero.mp hlen)
    subst hl
    simp [splitFuelAux] at hmem
    simp [hmem]
  | succ fuel ih =>
    intro l chunk hlen hmem
    cases l with
    | nil =>
      simp [splitFuelAux] at hmem
      simp [hmem]
    | cons c rest =>
      have hrest : rest.length ≤ fuel := by
        simp only [List.length_cons] at hlen
        omega
      unfold splitFuelAux at hmem
      split at hmem
      next hc =>
        rcases List.mem_cons.mp hmem with hnil | htail
        · simp [hnil]
        · have hdrop : (c :: rest).drop ([x].length) = rest := by simp
          rw [hdrop] at htail
          exact ih rest chunk hrest htail
      next hc =>
        have hne : ¬ x = c := by
          intro hxc
          exact hc ⟨by simp, by simp [hxc, List.isPrefixOf_iff_prefix]⟩
        split at hmem
        next h2 =>
          simp at hmem
          simp [hmem, hne]
        next ch mo h2 =>
          rcases List.mem_cons.mp hmem with hhead | htail
          · have hch : ch ∈ splitFuelAux [x] fuel rest := h2 ▸ List.mem_cons_self ch mo
            have := ih rest ch hrest hch
            simp [hhead, hne, this]
          · have : chunk ∈ splitFuelAux [x] fuel rest := h2 ▸ List.mem_cons_of_mem ch htail
            exact ih rest chunk hrest this

theorem mem_jsSplit_infix {content sep line : String}
    (h : line ∈ jsSplit content sep) : line.data <:+: content.data := by
  unfold jsSplit splitOnList at h
  obtain ⟨cs, hcs, hmk⟩ := List.mem_map.mp h
  subst hmk
  exact splitFuelAux_infix sep.data content.data.length content.data cs (Nat.le_refl _) hcs

theorem mem_jsSplit_no_newline {content line : String}
    (h : line ∈ jsSplit content ("\n")) : ('\n' : Char) ∉ line.data := by
  unfold jsSplit splitOnList at h
  obtain ⟨cs, hcs, hmk⟩ := List.mem_map.mp h
  subst hmk
  have hsep : ("\n" : String).data = ['\n'] := rfl
  rw [hsep] at hcs
  exact splitFuelAux_single_not_mem '\n' content.data.length content.data cs (Nat.le_refl _) hcs

theorem toLower_eq_newline {c : Char} (h : c.toLower = '\n') : c = '\n' := by
  simp only [Char.toLower] at h
  split at h
  next hcond =>
    exfalso
    have h10 : (Char.ofNat (c.toNat + 32)).toNat = 10 := by rw [h]; rfl
    have hvalid : (c.toNat + 32).isValidChar := Or.inl (by omega)
    rw [Char.ofNat, dif_pos hvalid] at h10
    simp [Char.ofNatAux, Char.toNat, UInt32.toNat] at h10
  next => exact h

theorem filterMap_ite {α β : Type} (p : α → Bool) (f : α → β) (l : List α) :
    (l.filterMap (fun a => if p a then some (f a) else none)) = (l.filter p).map f := by
  induction l with
  | nil => rfl
  | cons a l ih =>
    by_cases h : p a <;> simp [List.filterMap_cons, List.filter_cons, h, ih]

theorem line_match_content {content line qL : String}
    (hline : line ∈ jsSplit content ("\n"))
    (h : strIncludes (toLowerStr line) qL = true) :
    strIncludes (toLowerStr content) qL = true := by
  rw [strIncludes_iff] at h ⊢
  have hinf : line.data <:+: content.data := mem_jsSplit_infix hline
  exact h.trans (List.IsInfix.map Char.toLower hinf)

theorem docHits_eq (name content queryLower : String) :
    docHits name content queryLower =
      ((List.range (jsSplit content ("\n")).length).filter
          (fun i => strIncludes (toLowerStr ((jsSplit content ("\n")).getD i (""))) queryLower)).map
        (fun i => ⟨name, i + 1, String.intercalate ("\n")
            (((jsSplit content ("\n")).take (min (jsSplit content ("\n")).length (i + 6))).drop
              (i - 2))⟩) := by
  unfold docHits
  exact filterMap_ite _ _ _

/-- Claim C3 (amended): `getFactorExamples` follows the claim's case analysis
once "absent" is widened to "absent or empty-text" (the JS falsiness test
`if (!content)`): such a store yields the not-found message; otherwise
`"all"` returns the document text unchanged; otherwise the `"\n## "`-split
sections are filtered by lowercased containment of the lowercased
`factorType`, with the guidance message when none match and the matching
sections re-joined under restored `## ` prefixes, separated by a blank
line, otherwise. -/
theorem c3_factor_examples_cases (docs : Docs) (factorType : String) :
    getFactorExamples docs factorType = getFactorExamplesSpec docs factorType := by
  unfold getFactorExamples getFactorExamplesSpec
  cases h : lookupDoc docs ("factor-examples") with
  | none => simp
  | some text =>
    by_cases ht : text = ""
    · simp [ht]
    · simp [ht]

/-- Claim C3 fails as stated on a store whose designated document is present
with empty text: with `factorType = "all"` the claim requires the full text
`""` unmodified, but the implementation tests JS falsiness rather than
absence and answers the not-found message. -/
theorem c3_counterexample :
    lookupDoc [(("factor-examples"), (""))] ("factor-examples") = some ("") ∧
      getFactorExamples [(("factor-examples"), (""))] ("all") = "factor-examples not found" := by
  constructor
  · rfl
  · rfl

/-- Claim C7: `get` returns the stored text itself on an exact key match
(hence byte-identical text on every call), and otherwise a not-found message
that names the query and enumerates every valid document name. -/
theorem c7_get_document (docs : Docs) (name : String) :
    (∀ content, lookupDoc docs name = some content → getDocument docs name = content) ∧
    (lookupDoc docs name = none →
      getDocument docs name =
        "Document \x27" ++ name ++ "\x27 not found.\n\nAvailable documents: " ++
          String.intercalate (", ") (docs.map (fun p => p.1))) := by
  constructor
  · intro content h
    unfold getDocument
    rw [h]
  · intro h
    unfold getDocument
    rw [h]

theorem c7_witness :
    getDocument [(("guide"), ("text"))] ("guide") = ("text") ∧
      getDocument [(("guide"), ("text"))] ("missing") =
        "Document \x27" ++ ("missing") ++ "\x27 not found.\n\nAvailable documents: " ++
          String.intercalate (", ") ([(("guide"), ("text"))].map (fun p => p.1)) :=
  ⟨(c7_get_document [(("guide"), ("text"))] ("guide")).1 ("text") rfl,
   (c7_get_document [(("guide"), ("text"))] ("missing")).2 rfl⟩

/-- Claim C8: search is case-insensitive — two queries with the same
lowercasing produce identical hit lists over any store. -/
theorem c8_case_insensitive (docs : Docs) (q1 q2 : String)
    (h : toLowerStr q1 = toLowerStr q2) :
    searchHits docs q1 = searchHits docs q2 := by
  unfold searchHits
  rw [h]

theorem c8_witness :
    toLowerStr ("Momentum") = toLowerStr ("momentum") ∧
      searchHits [(("a"), ("momentum rules"))] ("Momentum") =
        searchHits [(("a"), ("momentum rules"))] ("momentum") :=
  ⟨by decide, c8_case_insensitive [(("a"), ("momentum rules"))] ("Momentum") ("momentum") (by decide)⟩

/-- Claim C9 (amended): the tool-call dispatch over the four engine
operations returns a string for every input except a `search_finlab_docs`
call missing its schema-required `query` argument, where the JS code calls
`toLowerCase` on `undefined` and throws (modelled by `none`). -/
theorem c9_dispatch_total (docs : Docs) (name : String) (args : ToolArgs)
    (h : name = "search_finlab_docs" → (args.lookup ("query")).isSome = true) :
    (handleToolCall docs name args).isSome = true := by
  unfold handleToolCall
  split
  · rfl
  · rfl
  · cases hq : args.lookup ("query") with
    | none =>
      have hsome := h rfl
      rw [hq] at hsome
      simp at hsome
    | some q => rfl
  · rfl
  · rfl

theorem c9_witness :
    ((("get_factor_examples") : String) = "search_finlab_docs" →
        (([] : ToolArgs).lookup ("query")).isSome = true) ∧
      (handleToolCall [] ("get_factor_examples") []).isSome = true :=
  ⟨by decide, c9_dispatch_total [] ("get_factor_examples") [] (by decide)⟩

/-- Claim C9 fails as stated: a `tools/call` of `search_finlab_docs` without
a `query` argument throws a TypeError inside `searchDocs` (modelled by
`none`) instead of returning a string. -/
theorem c9_counterexample :
    handleToolCall [] ("search_finlab_docs") [] = none := rfl

/-- Claim C2 (amended): whenever the collected hit list is empty — any query
with zero hits — `searchDocs` returns the no-results message and reports the
original query string verbatim. (The empty query is not such a case on a
non-empty store: in JS every line contains the empty string, so it matches
every line instead.) -/
theorem c2_no_results_message (docs : Docs) (query : String)
    (h : searchHits docs query = []) :
    searchDocs docs query = "No results found for \x27" ++ query ++ "\x27" := by
  unfold searchDocs
  rw [h]
  rfl

theorem c2_witness :
    searchHits [(("a"), ("xyz"))] ("zzz") = [] ∧
      searchDocs [(("a"), ("xyz"))] ("zzz") = "No results found for \x27" ++ ("zzz") ++ "\x27" :=
  ⟨by decide, c2_no_results_message [(("a"), ("xyz"))] ("zzz") (by decide)⟩

/-- Claim C2 fails as stated for the empty query: on the one-document store
`{a: "x"}` the empty query matches the only line (JS `includes('')` is
always true), so `searchDocs` renders a results page instead of the
no-results message. -/
theorem c2_counterexample :
    searchDocs [(("a"), ("x"))] ("") ≠ "No results found for \x27\x27" := by
  decide

/-- Claim C6: at most 10 hits are ever rendered — the rendered list is
`take 10` of the full hit list (the first ten in document-iteration order
then line order), and the non-empty-output report is exactly the header
followed by those rendered hits. -/
theorem c6_at_most_ten (docs : Docs) (query : String) :
    ((searchHits docs query).take 10).length ≤ 10 ∧
    (searchHits docs query ≠ [] →
      searchDocs docs query =
        "## Search Results: " ++ query ++ "\n\n" ++
          String.join (((searchHits docs query).take 10).map renderHit)) := by
  constructor
  · simp [List.length_take_le]
  · intro h
    unfold searchDocs
    rw [if_neg h]

theorem c6_witness :
    ((searchHits [(("a"), ("x"))] ("x")).take 10).length ≤ 10 ∧
      searchDocs [(("a"), ("x"))] ("x") =
        "## Search Results: " ++ ("x") ++ "\n\n" ++
          String.join (((searchHits [(("a"), ("x"))] ("x")).take 10).map renderHit) :=
  ⟨(c6_at_most_ten [(("a"), ("x"))] ("x")).1,
   (c6_at_most_ten [(("a"), ("x"))] ("x")).2 (by decide)⟩

/-- Claim C1: every envelope the dispatcher returns carries the request's
correlation identifier, and exactly one of the success result and the error
is populated — never both, never neither. -/
theorem c1_envelope_exclusive (docs : Docs) (req : McpRequest) (resp : McpResponse)
    (h : handleMcpRequest docs req = some resp) :
    resp.id = req.id ∧ (resp.result.isSome = true ↔ resp.error = none) := by
  unfold handleMcpRequest at h
  split at h
  · injection h with h
    subst h
    simp
  · injection h with h
    subst h
    simp
  · split at h
    · exact absurd h (by simp)
    · simp only [] at h
      split at h
      · exact absurd h (by simp)
      · injection h with h
        subst h
        simp
  · injection h with h
    subst h
    simp

theorem c1_witness :
    handleMcpRequest [] c1Req = some c1Resp ∧
      (c1Resp.id = c1Req.id ∧ (c1Resp.result.isSome = true ↔ c1Resp.error = none)) :=
  ⟨rfl, c1_envelope_exclusive [] c1Req c1Resp rfl⟩

theorem getD_mem_of_lt {α : Type} (l : List α) (i : Nat) (d : α) (h : i < l.length) :
    l.getD i d ∈ l := by
  rw [List.getD_eq_getElem?_getD, List.getElem?_eq_getElem h]
  exact List.getElem_mem h

/-- Claim C4: the returned envelope has a populated error (the fixed code
-32601 and a message naming the method) and an absent result exactly when
the method is none of `initialize`, `tools/list`, `tools/call`; the three
known methods always produce a successful envelope, and in particular a
`tools/call` with an unrecognized tool name succeeds with a text content
stating the tool is unknown. -/
theorem c4_protocol_vs_business (docs : Docs) (req : McpRequest) (resp : McpResponse)
    (h : handleMcpRequest docs req = some resp) :
    ((req.method ≠ "initialize" ∧ req.method ≠ "tools/list" ∧ req.method ≠ "tools/call") ↔
      (resp.error = some ⟨-32601, ("Method not found: ") ++ req.method⟩ ∧ resp.result = none)) ∧
    ((req.method = "initialize" ∨ req.method = "tools/list" ∨ req.method = "tools/call") →
      resp.error = none ∧ resp.result ≠ none) ∧
    (∀ p n, req.method = "tools/call" → req.params = some p → p.name = some n →
      n ≠ "list_documents" → n ≠ "get_document" → n ≠ "search_finlab_docs" →
      n ≠ "get_factor_examples" →
      resp.error = none ∧
        resp.result = some (McpResult.toolCall [⟨("text"), ("Unknown tool: ") ++ n⟩])) := by
  unfold handleMcpRequest at h
  split at h
  next heq =>
    injection h with h
    subst h
    simp [heq]
  next heq =>
    injection h with h
    subst h
    simp [heq]
  next heq =>
    split at h
    next hp0 => exact absurd h (by simp)
    next p hp =>
      simp only [] at h
      split at h
      next hinner => exact absurd h (by simp)
      next text hinner =>
        injection h with h
        subst h
        refine ⟨by simp [heq], by simp, ?_⟩
        intro p' n hm hp' hn hn1 hn2 hn3 hn4
        rw [hp] at hp'
        injection hp' with hp'
        subst hp'
        split at hinner
        next n' heqn =>
          rw [hn] at heqn
          injection heqn with heqn
          subst heqn
          unfold handleToolCall at hinner
          split at hinner
          next => exact absurd rfl hn1
          next => exact absurd rfl hn2
          next => exact absurd rfl hn3
          next => exact absurd rfl hn4
          next =>
            injection hinner with hinner
            subst hinner
            exact ⟨rfl, rfl⟩
        next heqn =>
          rw [hn] at heqn
          exact absurd heqn (by simp)
  next h1 h2 h3 =>
    injection h with h
    subst h
    refine ⟨iff_of_true ⟨h1, h2, h3⟩ ⟨rfl, rfl⟩, ?_, ?_⟩
    · intro hor
      rcases hor with hi | hi | hi
      · exact absurd hi h1
      · exact absurd hi h2
      · exact absurd hi h3
    · intro p n hm hp hn hn1 hn2 hn3 hn4
      exact absurd hm h3

theorem c4_witness :
    c4Resp.error = some ⟨-32601, ("Method not found: ") ++ c4Req.method⟩ ∧ c4Resp.result = none :=
  (c4_protocol_vs_business [] c4Req c4Resp rfl).1.mp (by decide)

/-- Claim C5: within a document, each 0-based matching line index `i`
produces exactly one hit (overlapping hits are not merged), carrying the
1-based line number `i + 1` and the context window
`lines[max(0, i - 2), min(len, i + 6))` clipped at the document
boundaries — and the pre-filter never drops a document containing a
matching line; on the store `{a: "line1\nMATCH\nline3"}` the query
`"match"` yields exactly one hit for document `a`, line 2, with window
`["line1", "MATCH", "line3"]`. -/
theorem c5_hit_windows (name content queryLower : String) :
    (perDocHits name content queryLower =
      ((List.range (jsSplit content ("\n")).length).filter
          (fun i => strIncludes (toLowerStr ((jsSplit content ("\n")).getD i (""))) queryLower)).map
        (fun i => ⟨name, i + 1, String.intercalate ("\n")
            (((jsSplit content ("\n")).take (min (jsSplit content ("\n")).length (i + 6))).drop
              (max 0 (i - 2)))⟩)) ∧
    searchHits [(("a"), ("line1\nMATCH\nline3"))] ("match") =
      [⟨("a"), 2, ("line1\nMATCH\nline3")⟩] := by
  constructor
  · simp only [Nat.zero_max]
    unfold perDocHits
    by_cases hpre : strIncludes (toLowerStr content) queryLower = true
    · rw [if_pos hpre]
      exact docHits_eq name content queryLower
    · rw [if_neg hpre]
      symm
      rw [List.map_eq_nil_iff, List.filter_eq_nil_iff]
      intro i hi hmatch
      have hiLt : i < (jsSplit content ("\n")).length := List.mem_range.mp hi
      have hmem := getD_mem_of_lt (jsSplit content ("\n")) i ("") hiLt
      exact hpre (line_match_content hmem hmatch)
  · decide

/-- Claim C10: a query containing a newline can never match a single line
(the line scan splits documents on newlines, so no line contains one), so
search returns the no-results message even when some document's full text
does contain the query as a substring. -/
theorem c10_newline_query (docs : Docs) (query : String)
    (h : ('\n' : Char) ∈ query.data) :
    searchDocs docs query = "No results found for \x27" ++ query ++ "\x27" := by
  have hq : ('\n' : Char) ∈ (toLowerStr query).data :=
    List.mem_map.mpr ⟨'\n', h, by decide⟩
  have hempty : searchHits docs query = [] := by
    unfold searchHits searchResults
    rw [List.flatMap_eq_nil_iff]
    intro p hp
    unfold perDocHits
    split
    next hpre =>
      unfold docHits
      simp only []
      rw [List.filterMap_eq_nil_iff]
      intro i hi
      have hncond :
          ¬ (strIncludes (toLowerStr ((jsSplit p.2 ("\n")).getD i (""))) (toLowerStr query)
              = true) := by
        intro hmatch
        have hiLt : i < (jsSplit p.2 ("\n")).length := List.mem_range.mp hi
        have hmem := getD_mem_of_lt (jsSplit p.2 ("\n")) i ("") hiLt
        have hnoNl := mem_jsSplit_no_newline hmem
        have hsub := (strIncludes_iff _ _).mp hmatch
        have hin : ('\n' : Char) ∈ ((jsSplit p.2 ("\n")).getD i ("")).data.map Char.toLower :=
          hsub.subset hq
        obtain ⟨c, hc, hceq⟩ := List.mem_map.mp hin
        exact hnoNl (toLower_eq_newline hceq ▸ hc)
      rw [if_neg hncond]
    next => rfl
  unfold searchDocs
  rw [hempty]
  rfl

theorem c10_witness :
    ('\n' : Char) ∈ ("foo\nbar" : String).data ∧
      strIncludes (toLowerStr ("foo\nbar")) (toLowerStr ("foo\nbar")) = true ∧
      searchDocs [(("a"), ("foo\nbar"))] ("foo\nbar") =
        "No results found for \x27" ++ ("foo\nbar") ++ "\x27" :=
  ⟨by decide, by decide, c10_newline_query [(("a"), ("foo\nbar"))] ("foo\nbar") (by decide)⟩
